import Mathlib

/-!
# Server state save and recovery (`src/server/svr_recov.c`)

A shallow embedding of `svr_recov_fs`, `svr_save_fs`, `save_acl`, `recov_acl`,
`sched_recov_fs` and `sched_save_fs`.

* The file system is a map from path names to file contents; a descriptor is a
  path together with a file offset.
* Every system call whose result the C code inspects (or ignores) takes its
  outcome from an explicit environment record, so that every failure branch of
  the C code is reachable in the model.
* A loop that retries on `EINTR` consumes a list of write outcomes; when the
  list is exhausted the call has not returned (`none`).
-/

namespace SvrRecov

/-! ## Bytes, files and system calls -/

/-- One storage cell of a file or of a memory image. -/
abbrev Byte := Nat

/-- A byte string. -/
abbrev Bytes := List Byte

/-- The file system: `none` means that no file exists under the path. -/
abbrev FS := String → Option Bytes

/-- Replace (or remove, with `none`) the file stored under `p`. -/
def FS.put (fs : FS) (p : String) (c : Option Bytes) : FS :=
  fun q => if q = p then c else fs q

/-- The value of `errno` for a missing file. -/
def ENOENT : Nat := 2

/-- The value of `errno` for an interrupted system call. -/
def EINTR : Nat := 4

/-- An open file descriptor: the file it refers to and the current offset. -/
structure Fd where
  path : String
  pos : Nat
deriving DecidableEq, Repr

/-- The content of a file after `data` has been written at offset `off`
(a gap between the old end of file and `off` reads as zero bytes). -/
def overlay (old : Bytes) (off : Nat) (data : Bytes) : Bytes :=
  old.take off ++ List.replicate (off - old.length) 0 ++ data ++ old.drop (off + data.length)

/-- What the kernel does with one `write` call. -/
inductive WriteOutcome where
  /-- every requested byte is transferred -/
  | full
  /-- at most `k` bytes are transferred, the call returns the count -/
  | short (k : Nat)
  /-- nothing is transferred, the call returns -1 and sets `errno` -/
  | error (errno : Nat)
deriving DecidableEq, Repr

/-- The value of `errno` after a `write` with the given outcome (0: untouched). -/
def WriteOutcome.errno_of : WriteOutcome → Nat
  | .error e => e
  | _ => 0

/-- Call `open(path, O_RDONLY)`: fails with the injected `errno`, or with `ENOENT` when
there is no such file. -/
def sys_open_rdonly (fs : FS) (path : String) (fault : Option Nat) : Except Nat Fd :=
  match fault with
  | some e => .error e
  | none =>
    match fs path with
    | none => .error ENOENT
    | some _ => .ok ⟨path, 0⟩

/-- Call `open(path, O_WRONLY | O_CREAT | O_Sync, pmode)`, with `O_TRUNC` added when
`trunc` is set: the file is created empty when absent; an existing file keeps its
content unless `O_TRUNC` is given. -/
def sys_open_wronly_creat (fs : FS) (path : String) (trunc : Bool) (fault : Option Nat) :
    Except Nat (Fd × FS) :=
  match fault with
  | some e => .error e
  | none =>
    match fs path with
    | none => .ok (⟨path, 0⟩, fs.put path (some []))
    | some _ => .ok (⟨path, 0⟩, if trunc then fs.put path (some []) else fs)

/-- Call `write(fd, buf, count)`: returns the value of the call, the file system and the
advanced descriptor. -/
def sys_write (fs : FS) (fd : Fd) (buf : Bytes) (count : Nat) (o : WriteOutcome) :
    Int × FS × Fd :=
  match o with
  | .error _ => (-1, fs, fd)
  | .full =>
    let d := buf.take count
    (d.length, fs.put fd.path (some (overlay ((fs fd.path).getD []) fd.pos d)),
      ⟨fd.path, fd.pos + d.length⟩)
  | .short k =>
    let d := (buf.take count).take k
    (d.length, fs.put fd.path (some (overlay ((fs fd.path).getD []) fd.pos d)),
      ⟨fd.path, fd.pos + d.length⟩)

/-- What the kernel does with one `read` call. -/
inductive ReadOutcome where
  /-- every requested byte that the file holds past the offset is delivered -/
  | full
  /-- at most `k` of them are delivered -/
  | short (k : Nat)
  /-- nothing is delivered, the call returns -1 and sets `errno` -/
  | error (errno : Nat)
deriving DecidableEq, Repr

/-- Call `read(fd, buf, count)`: returns the value of the call and the bytes stored in
the buffer. -/
def sys_read (fs : FS) (fd : Fd) (count : Nat) (o : ReadOutcome) : Int × Bytes :=
  match o with
  | .error _ => (-1, [])
  | .full =>
    let d := (((fs fd.path).getD []).drop fd.pos).take count
    (d.length, d)
  | .short k =>
    let d := ((((fs fd.path).getD []).drop fd.pos).take count).take k
    (d.length, d)

/-- Call `rename(old, new)`. -/
def sys_rename (fs : FS) (old new : String) (fault : Option Nat) : Int × FS :=
  match fault with
  | some _ => (-1, fs)
  | none =>
    match fs old with
    | none => (-1, fs)
    | some c => if old = new then (0, fs) else (0, (fs.put new (some c)).put old none)

/-- Call `unlink(path)`. -/
def sys_unlink (fs : FS) (path : String) (fault : Option Nat) : Int × FS :=
  match fault with
  | some _ => (-1, fs)
  | none =>
    match fs path with
    | none => (-1, fs)
    | some _ => (0, fs.put path none)

/-! ## Attributes and the server structure

The headers `attribute.h`, `server.h` and `pbs_ifl.h` are not part of this file; the
declarations taken from them are marked. -/

/-- Modelled from the spec: the flag `SET` of an attribute (has a value), the macro
`ATR_VFLAG_SET` of `attribute.h`. -/
def ATR_VFLAG_SET : Nat := 0x01

/-- Modelled from the spec: the flag `MODIFIED` of an attribute (dirty since the last
save), the macro `ATR_VFLAG_MODIFY` of `attribute.h`. -/
def ATR_VFLAG_MODIFY : Nat := 0x02

/-- Modelled from the spec: the type tag of ACL attributes, the macro `ATR_TYPE_ACL` of
`attribute.h`. -/
def ATR_TYPE_ACL : Nat := 8

/-- The C statement `flags &= ~mask` on the 16 bit field `at_flags`. -/
def clear_flag (flags mask : Nat) : Nat :=
  flags &&& (0xFFFF ^^^ mask)

/-- Modelled from the spec: the type `attribute` of `attribute.h` (the name is reserved in
Lean, hence the capital), a tagged value with flags, a type tag and the value (an
uninterpreted payload). -/
structure Attribute where
  at_flags : Nat
  at_type : Nat
  at_val : List Nat
deriving DecidableEq, Repr

/-- Modelled from the spec: the type `svrattrl` of `attribute.h`, one linearized entry of
an encoded attribute: the name of the attribute, the value string with its terminating
NUL, the C `int` `al_valln` (the length of the value string, the NUL counted), and the
linear byte sequence of the whole entry. -/
structure svrattrl where
  al_name : String
  al_value : Bytes
  al_valln : Int
  al_image : Bytes
deriving DecidableEq, Repr

/-- Modelled from the spec: how the next entry is cut from the byte stream of a saved
object, giving the entry and the rest of the stream (the framing is what the codec
embeds in its linear entries); `none` when the stream does not start with an entry. -/
abbrev EntryParser := Bytes → Option (svrattrl × Bytes)

/-- Modelled from the spec: the set modes of the codec, `enum batch_op` of `pbs_ifl.h`. -/
inductive batch_op where
  | SET | UNSET | INCR | DECR | EQ | NE | GE | GT | LE | LT | DFLT
deriving DecidableEq, Repr

/-- Modelled from the spec: the quick save area `struct server_qs` of `server.h`, with
the save time among its fields. -/
structure server_qs where
  sv_numjobs : Nat
  sv_numque : Nat
  sv_jobidnumber : Nat
  sv_savetm : Nat
deriving DecidableEq, Repr

/-- Modelled from the spec: the server object `struct server` of `server.h`, the quick
save area and the attribute array. -/
structure server where
  sv_qs : server_qs
  sv_attr : List Attribute
deriving DecidableEq, Repr

/-- Modelled from the spec: the type `attribute_def` of `attribute.h`, one schema entry
with the codec's function pointers. `at_encode` is `none` for a negative return;
`at_decode` and `at_set` return the value of the call and the attribute they wrote to;
`at_action` is `none` for `NULL_FUNC` (it is given the server and the index of the slot);
encode only reads the attribute. -/
structure attribute_def where
  at_name : String
  at_type : Nat
  at_encode : Attribute → Option (List svrattrl)
  at_decode : Attribute → String → Bytes → Int × Attribute
  at_set : Attribute → Attribute → batch_op → Int × Attribute
  at_action : Option (server → Nat → server)

/-- The byte image of `struct server_qs`: `size` is `sizeof(struct server_qs)`,
`toBytes` reads the memory of the structure and `ofBytes` is the structure whose memory
holds the given bytes. -/
structure QsLayout where
  size : Nat
  toBytes : server_qs → Bytes
  ofBytes : Bytes → server_qs
  length_toBytes : ∀ q, (toBytes q).length = size
  ofBytes_toBytes : ∀ q, ofBytes (toBytes q) = q

/-- The structure `q` after `data` was stored at the start of its memory, as `read`
does with the address of the structure for a buffer. -/
def QsLayout.store (lay : QsLayout) (q : server_qs) (data : Bytes) : server_qs :=
  lay.ofBytes (data ++ (lay.toBytes q).drop data.length)

/-- The global data items of the server that the functions read. -/
structure Globals where
  path_priv : String
  path_svrdb : String
  path_svrdb_new : String
  path_scheddb : String
  path_scheddb_new : String
  time_now : Nat

/-- Modelled from the spec: the directory of the server ACL files below `path_priv`, the
macro `PBS_SVRACL` of `server.h`. -/
def PBS_SVRACL : String := "svracl"

/-- Modelled from the spec: the quick save mode, the macro `SVR_SAVE_QUICK` of
`server.h`. -/
def SVR_SAVE_QUICK : Int := 0

/-- Modelled from the spec: the full save mode, the macro `SVR_SAVE_FULL` of `server.h`. -/
def SVR_SAVE_FULL : Int := 1

/-- Modelled from the spec: the name of the default scheduler, the macro
`PBS_DFLT_SCHED_NAME`. -/
def PBS_DFLT_SCHED_NAME : String := "default"

/-! ## `save_acl` -/

/-- The conversion of a C `int` to `size_t` (64 bits) in a call: a value that is not
negative is kept, a negative one wraps. -/
def size_t_of_int (n : Int) : Nat :=
  if 0 ≤ n then n.toNat else (2 ^ 64 + n).toNat

/-- The loop `while ((i = write(fd, buf, count)) != expect)`, where `count` is the
`size_t` given to `write` and `expect` the value its result is compared with: the loop
ends (`true`) when the call returned `expect`, is retried when it returned -1 with
`errno == EINTR`, and is abandoned (`false`) on any other result. `none`: the outcomes
are exhausted and the loop has not ended. -/
def write_retry (fs : FS) (fd : Fd) (buf : Bytes) (count : Nat) (expect : Int) :
    List WriteOutcome → Option (Bool × FS)
  | [] => none
  | o :: os =>
    match sys_write fs fd buf count o with
    | (i, fs1, fd1) =>
      if i = expect then some (true, fs1)
      else if i = -1 ∧ o.errno_of = EINTR then write_retry fs1 fd1 buf count expect os
      else some (false, fs1)

/-- The outcomes of the system calls of one `save_acl` call. -/
structure AclSaveEnv where
  open_fault : Option Nat
  writes : List WriteOutcome
  rename_fault : Option Nat
  unlink_fault : Option Nat

/-- The name of the ACL file: `path_priv`, `subdir`, "/" and `name` concatenated. -/
def acl_filename (g : Globals) (subdir name : String) : String :=
  g.path_priv ++ subdir ++ "/" ++ name

/-- Function `save_acl`: returns the value of the call, the attribute and the file
system. -/
def save_acl (g : Globals) (fs : FS) (attr : Attribute) (pdef : attribute_def)
    (subdir name : String) (env : AclSaveEnv) : Option (Int × Attribute × FS) :=
  if attr.at_flags &&& ATR_VFLAG_MODIFY = 0 then
    some (0, attr, fs)
  else
    let attr1 : Attribute := { attr with at_flags := clear_flag attr.at_flags ATR_VFLAG_MODIFY }
    let filename1 := acl_filename g subdir name
    if attr1.at_flags &&& ATR_VFLAG_SET = 0 then
      some (0, attr1, (sys_unlink fs filename1 env.unlink_fault).2)
    else
      let filename2 := filename1 ++ ".new"
      match sys_open_wronly_creat fs filename2 true env.open_fault with
      | .error _ => some (-1, attr1, fs)
      | .ok (fds, fs1) =>
        match pdef.at_encode attr1 with
        | none => some (-1, attr1, (sys_unlink fs1 filename2 env.unlink_fault).2)
        | some head =>
          let written : Option (Bool × FS) :=
            match head with
            | [] => some (true, fs1)
            | pentry :: _ =>
              write_retry fs1 fds pentry.al_value (size_t_of_int (pentry.al_valln - 1))
                (pentry.al_valln - 1) env.writes
          match written with
          | none => none
          | some (false, fs2) =>
            some (-1, attr1, (sys_unlink fs2 filename2 env.unlink_fault).2)
          | some (true, fs2) =>
            match sys_rename fs2 filename2 filename1 env.rename_fault with
            | (rc, fs3) =>
              if rc < 0 then some (-1, attr1, fs3)
              else
                some (0, { attr1 with at_flags := clear_flag attr1.at_flags ATR_VFLAG_MODIFY }, fs3)

/-! ## `recov_acl` -/

/-- A call of one of the codec's functions. -/
inductive CodecCall where
  | decode (name : String) (buf : Bytes)
  | set (new : Attribute) (op : batch_op)
  | free
deriving DecidableEq, Repr

/-- The outcomes of the system calls of one `recov_acl` call. -/
structure AclRecovEnv where
  open_fault : Option Nat
  fstat_fault : Bool
  malloc_fault : Bool
  read : ReadOutcome

/-- Modelled from the spec: `clear_attr(&tempat, pdef)`, missing from this file, prepares
the scratch attribute that decode fills: no flag, the type of the definition, no value. -/
def clear_attr (pdef : attribute_def) : Attribute :=
  ⟨0, pdef.at_type, []⟩

/-- Function `recov_acl`: returns the target attribute and the calls made to the
codec, in order. -/
def recov_acl (g : Globals) (fs : FS) (pattr : Attribute) (pdef : attribute_def)
    (subdir : Option String) (name : String) (env : AclRecovEnv) :
    Attribute × List CodecCall :=
  let filename1 :=
    match subdir with
    | some s => g.path_priv ++ s ++ "/" ++ name
    | none => g.path_priv ++ name
  match sys_open_rdonly fs filename1 env.open_fault with
  | .error _ => (pattr, [])
  | .ok fds =>
    if env.fstat_fault then (pattr, [])
    else
      let st_size := ((fs filename1).getD []).length
      if st_size = 0 then (pattr, [])
      else if env.malloc_fault then (pattr, [])
      else
        match sys_read fs fds st_size env.read with
        | (n, data) =>
          if n ≠ (st_size : Int) then (pattr, [])
          else
            let buf := data ++ [0]
            let tempat := clear_attr pdef
            match pdef.at_decode tempat pdef.at_name buf with
            | (rc, tempat1) =>
              if rc < 0 then
                (pattr, [.decode pdef.at_name buf, .free])
              else
                match pdef.at_set pattr tempat1 .SET with
                | (_, pattr1) =>
                  (pattr1, [.decode pdef.at_name buf, .set tempat1 .SET, .free])

/-! ## The buffered writer and the attribute stream (`attr_recov.c` is not part of this file) -/

/-- Modelled from the spec: the state that `save_setup` leaves for `save_struct`,
`save_attr_fs` and `save_flush` (none of them part of this file), namely the descriptor
the bytes are appended to and the number of bytes the device still accepts (`none`: no
write fails). -/
structure SaveState where
  fd : Fd
  budget : Option Nat
deriving DecidableEq, Repr

/-- Modelled from the spec: `save_setup(fd)`, missing from this file, directs the
following writes to `fd`. -/
def save_setup (fd : Fd) (budget : Option Nat) : SaveState :=
  ⟨fd, budget⟩

/-- Modelled from the spec: `save_struct(buf, len)`, missing from this file, appends the
bytes verbatim to the file; a write failure (the device accepts only part of the bytes)
is fatal and returns -1, leaving what was accepted in the file. -/
def save_struct (fs : FS) (st : SaveState) (buf : Bytes) (len : Nat) : Int × FS × SaveState :=
  match st.budget with
  | none =>
    let w := sys_write fs st.fd buf len .full
    (0, w.2.1, ⟨w.2.2, none⟩)
  | some k =>
    if (buf.take len).length ≤ k then
      let w := sys_write fs st.fd buf len .full
      (0, w.2.1, ⟨w.2.2, some (k - (buf.take len).length)⟩)
    else
      let w := sys_write fs st.fd buf len (.short k)
      (-1, w.2.1, ⟨w.2.2, some 0⟩)

/-- The entries of one encoded attribute are appended in order. -/
def save_entries (fs : FS) (st : SaveState) : List svrattrl → Int × FS × SaveState
  | [] => (0, fs, st)
  | e :: es =>
    let r := save_struct fs st e.al_image e.al_image.length
    if r.1 ≠ 0 then (-1, r.2.1, r.2.2) else save_entries r.2.1 r.2.2 es

/-- Modelled from the spec: `save_attr_fs(padef, pattr, numattr)`, missing from this
file, streams each `SET` attribute through the encode operation and appends the
resulting linear entries in schema order; a slot with `SET` unset is omitted entirely,
and an ACL typed attribute is persisted in its own file, not in this stream. -/
def save_attr_fs (fs : FS) (st : SaveState) :
    List attribute_def → List Attribute → Int × FS × SaveState
  | d :: ds, a :: as =>
    if a.at_flags &&& ATR_VFLAG_SET ≠ 0 ∧ d.at_type ≠ ATR_TYPE_ACL then
      match d.at_encode a with
      | none => (-1, fs, st)
      | some entries =>
        let r := save_entries fs st entries
        if r.1 ≠ 0 then (-1, r.2.1, r.2.2) else save_attr_fs r.2.1 r.2.2 ds as
    else save_attr_fs fs st ds as
  | _, _ => (0, fs, st)

/-- Modelled from the spec: `save_flush()`, missing from this file, flushes to stable
storage and reports a failure with -1. -/
def save_flush (flush_fault : Bool) : Int :=
  if flush_fault then -1 else 0

/-- Modelled from the spec: the entries of a byte stream, cut one after the other until
the stream does not start with an entry; an entry takes at least one byte, so `n`, the
length of the stream, bounds their number. -/
def parse_entries (parse : EntryParser) : Nat → Bytes → List svrattrl
  | 0, _ => []
  | n + 1, stream =>
    match parse stream with
    | none => []
    | some (e, rest) => e :: parse_entries parse n rest

/-- Modelled from the spec: the attribute-decoding protocol for one slot: the codec's
decode is called on the slot for each of the next entries that carry the name of the
slot; gives the slot and the entries that are left, or `none` when a decode fails. -/
def decode_slot (d : attribute_def) (a : Attribute) :
    List svrattrl → Option (Attribute × List svrattrl)
  | [] => some (a, [])
  | e :: es =>
    if e.al_name = d.at_name then
      if (d.at_decode a e.al_name e.al_value).1 < 0 then none
      else decode_slot d (d.at_decode a e.al_name e.al_value).2 es
    else some (a, e :: es)

/-- Modelled from the spec: `recov_attr_fs(fd, parent, padef, pattr, limit, unknown)`,
missing from this file, hands the remaining stream to the attribute-decoding protocol,
invoked once per defined attribute slot, in schema order, stopping and failing if any
slot fails to decode. -/
def recov_attr_entries :
    List attribute_def → List Attribute → List svrattrl → Int × List Attribute
  | d :: ds, a :: as, es =>
    match decode_slot d a es with
    | none => (-1, a :: as)
    | some (a1, rest) =>
      let r := recov_attr_entries ds as rest
      (r.1, a1 :: r.2)
  | _, as, _ => (0, as)

/-- Modelled from the spec: `recov_attr_fs` reads the bytes that follow the offset of
the descriptor; a failed read is a failure of the call. -/
def recov_attr_fs (parse : EntryParser) (fs : FS) (fd : Fd) (padef : List attribute_def)
    (pattr : List Attribute) (read_fault : Bool) : Int × List Attribute :=
  if read_fault then (-1, pattr)
  else
    let stream := ((fs fd.path).getD []).drop fd.pos
    recov_attr_entries padef pattr (parse_entries parse stream.length stream)

/-! ## `svr_save_fs` -/

/-- The outcomes of the system calls of one `svr_save_fs` or `sched_save_fs` call:
`writes` answers the header writes of a quick save, `budget` and `flush_fault` drive the
buffered writer of a full save, `acl i` answers the `save_acl` call for slot `i`. -/
structure SaveEnv where
  open_fault : Option Nat
  writes : List WriteOutcome
  budget : Option Nat
  flush_fault : Bool
  rename_fault : Option Nat
  acl : Nat → AclSaveEnv

/-- One round of the loop over the server attributes at the end of a full save:
`save_acl` for slot `i` when the attribute is of type ACL (its result is not looked
at). -/
def save_acl_step (g : Globals) (svr_attr_def : List attribute_def) (env : SaveEnv)
    (st : server × FS) (i : Nat) : Option (server × FS) :=
  match st.1.sv_attr[i]?, svr_attr_def[i]? with
  | some a, some d =>
    if a.at_type = ATR_TYPE_ACL then
      match save_acl g st.2 a d PBS_SVRACL d.at_name (env.acl i) with
      | none => none
      | some (_, a1, fs1) => some ({ st.1 with sv_attr := st.1.sv_attr.set i a1 }, fs1)
    else some st
  | _, _ => some st

/-- Function `svr_save_fs`; `SRV_ATR_LAST` is the length of `svr_attr_def`. Returns the
value of the call, the server structure and the file system; `none` when a write loop
does not end. -/
def svr_save_fs (g : Globals) (lay : QsLayout) (svr_attr_def : List attribute_def)
    (ps : server) (mode : Int) (fs : FS) (env : SaveEnv) : Option (Int × server × FS) :=
  if mode = SVR_SAVE_QUICK then
    match sys_open_wronly_creat fs g.path_svrdb false env.open_fault with
    | .error _ => some (-1, ps, fs)
    | .ok (sdb, fs1) =>
      match write_retry fs1 sdb (lay.toBytes ps.sv_qs) lay.size lay.size env.writes with
      | none => none
      | some (false, fs2) => some (-1, ps, fs2)
      | some (true, fs2) => some (0, ps, fs2)
  else
    match sys_open_wronly_creat fs g.path_svrdb_new false env.open_fault with
    | .error _ => some (-1, ps, fs)
    | .ok (sdb, fs1) =>
      let ps1 : server := { ps with sv_qs := { ps.sv_qs with sv_savetm := g.time_now } }
      let st := save_setup sdb env.budget
      let r1 := save_struct fs1 st (lay.toBytes ps1.sv_qs) lay.size
      if r1.1 ≠ 0 then some (-1, ps1, r1.2.1)
      else
        let r2 := save_attr_fs r1.2.1 r1.2.2 svr_attr_def ps1.sv_attr
        if r2.1 ≠ 0 then some (-1, ps1, r2.2.1)
        else if save_flush env.flush_fault ≠ 0 then some (-1, ps1, r2.2.1)
        else
          let fs4 := (sys_rename r2.2.1 g.path_svrdb_new g.path_svrdb env.rename_fault).2
          match (List.range svr_attr_def.length).foldlM
              (save_acl_step g svr_attr_def env) (ps1, fs4) with
          | none => none
          | some (ps2, fs5) => some (0, ps2, fs5)

/-! ## `svr_recov_fs` -/

/-- The outcomes of the system calls of one `svr_recov_fs` call. -/
structure RecovEnv where
  open_fault : Option Nat
  read : ReadOutcome
  attr_read_fault : Bool
  acl : Nat → AclRecovEnv

/-- What `svr_recov_fs` ran after the header was read. -/
inductive RecovEvent where
  | recov_attr
  | acl (i : Nat) (calls : List CodecCall)
  | action (i : Nat)
deriving DecidableEq, Repr

/-- One round of the loop over the server attributes at the end of `svr_recov_fs`:
`recov_acl` for slot `i` when the attribute is of type ACL, then the action routine of
the definition when there is one. -/
def recov_acl_step (g : Globals) (svr_attr_def : List attribute_def) (fs : FS)
    (env : RecovEnv) (st : server × List RecovEvent) (i : Nat) : server × List RecovEvent :=
  match st.1.sv_attr[i]?, svr_attr_def[i]? with
  | some a, some d =>
    if a.at_type = ATR_TYPE_ACL then
      match recov_acl g fs a d (some PBS_SVRACL) d.at_name (env.acl i) with
      | (a1, calls) =>
        let s1 : server := { st.1 with sv_attr := st.1.sv_attr.set i a1 }
        match d.at_action with
        | none => (s1, st.2 ++ [.acl i calls])
        | some act => (act s1 i, st.2 ++ [.acl i calls, .action i])
    else st
  | _, _ => st

/-- Function `svr_recov_fs` on the global `server`: returns the value of the call, the
server structure and what was run after the header read. The bytes that `read` delivers
are stored at the start of `server.sv_qs`. -/
def svr_recov_fs (g : Globals) (lay : QsLayout) (parse : EntryParser)
    (svr_attr_def : List attribute_def) (fs : FS) (server0 : server) (svrfile : String)
    (env : RecovEnv) : Int × server × List RecovEvent :=
  match sys_open_rdonly fs svrfile env.open_fault with
  | .error _ => (-1, server0, [])
  | .ok sdb =>
    let rd := sys_read fs sdb lay.size env.read
    let server1 : server := { server0 with sv_qs := QsLayout.store lay server0.sv_qs rd.2 }
    if rd.1 ≠ (lay.size : Int) then (-1, server1, [])
    else
      let ra := recov_attr_fs parse fs ⟨sdb.path, sdb.pos + rd.2.length⟩ svr_attr_def
        server1.sv_attr env.attr_read_fault
      let server2 : server := { server1 with sv_attr := ra.2 }
      if ra.1 ≠ 0 then (-1, server2, [.recov_attr])
      else
        let r := (List.range svr_attr_def.length).foldl
          (recov_acl_step g svr_attr_def fs env) (server2, [.recov_attr])
        (0, r.1, r.2)

/-! ## The scheduler -/

/-- Modelled from the spec: the scheduler object `pbs_sched`, with the name it was
allocated under and its attribute array. -/
structure pbs_sched where
  sc_name : String
  sch_attr : List Attribute
deriving DecidableEq, Repr

/-- The outcomes of the system calls of one `sched_recov_fs` call. -/
structure SchedRecovEnv where
  open_fault : Option Nat
  attr_read_fault : Bool

/-- What `sched_recov_fs` called after the open. -/
inductive SchedEvent where
  | alloc (name : String)
  | recov_attr
deriving DecidableEq, Repr

/-- Function `sched_recov_fs` on the global `dflt_scheduler` (`none` is the null
pointer); `sched_alloc` is the external allocator. Returns the value of the call,
`dflt_scheduler` and what was called after the open, in order. -/
def sched_recov_fs (sched_alloc : String → Option pbs_sched) (parse : EntryParser)
    (sched_attr_def : List attribute_def) (fs : FS) (dflt_scheduler : Option pbs_sched)
    (svrfile : String) (env : SchedRecovEnv) : Int × Option pbs_sched × List SchedEvent :=
  match sys_open_rdonly fs svrfile env.open_fault with
  | .error errno =>
    if errno = ENOENT then (0, dflt_scheduler, [])
    else (-1, dflt_scheduler, [])
  | .ok sdb =>
    match sched_alloc PBS_DFLT_SCHED_NAME with
    | none => (0, none, [.alloc PBS_DFLT_SCHED_NAME])
    | some sched =>
      let ra := recov_attr_fs parse fs sdb sched_attr_def sched.sch_attr env.attr_read_fault
      if ra.1 ≠ 0 then
        (-1, some { sched with sch_attr := ra.2 }, [.alloc PBS_DFLT_SCHED_NAME, .recov_attr])
      else
        (0, some { sched with sch_attr := ra.2 }, [.alloc PBS_DFLT_SCHED_NAME, .recov_attr])

/-- Function `sched_save_fs`. Returns the value of the call and the file system. -/
def sched_save_fs (g : Globals) (sched_attr_def : List attribute_def) (ps : pbs_sched)
    (mode : Int) (fs : FS) (env : SaveEnv) : Int × FS :=
  if mode = SVR_SAVE_QUICK then (-1, fs)
  else
    match sys_open_wronly_creat fs g.path_scheddb_new false env.open_fault with
    | .error _ => (-1, fs)
    | .ok (sdb, fs1) =>
      let st := save_setup sdb env.budget
      let r := save_attr_fs fs1 st sched_attr_def ps.sch_attr
      if r.1 ≠ 0 then (-1, r.2.1)
      else if save_flush env.flush_fault ≠ 0 then (-1, r.2.1)
      else (0, (sys_rename r.2.1 g.path_scheddb_new g.path_scheddb env.rename_fault).2)

/-! ## Auxiliary definitions for the statements -/

/-- The text that `save_acl` writes for the list of entries the codec returned. -/
def acl_text : List svrattrl → Bytes
  | [] => []
  | pentry :: _ => pentry.al_value.take (size_t_of_int (pentry.al_valln - 1))

/-- The round trip of one slot: the recovered attribute `x` is `SET` with the value of
the saved attribute `a` when `a` is `SET`, and is the default `z` when `a` is not. -/
def slot_matches (a z x : Attribute) : Prop :=
  (a.at_flags &&& ATR_VFLAG_SET ≠ 0 →
    x.at_flags &&& ATR_VFLAG_SET ≠ 0 ∧ x.at_val = a.at_val) ∧
  (a.at_flags &&& ATR_VFLAG_SET = 0 → x = z)

/-- The path of the ACL file of a server attribute. -/
def acl_path (g : Globals) (d : attribute_def) : String :=
  acl_filename g PBS_SVRACL d.at_name

/-- The ACL file that `save_acl` leaves for a modified attribute when no call fails:
none for an unset attribute, the text of the first entry otherwise. -/
def acl_expected (d : attribute_def) (a : Attribute) : Option Bytes :=
  if a.at_flags &&& ATR_VFLAG_SET = 0 then none
  else
    (d.at_encode { a with at_flags := clear_flag a.at_flags ATR_VFLAG_MODIFY }).map acl_text

/-- The ACL file of a slot after a full save in which no call fails: the file as it
stood in `fs` before the save when the attribute is not flagged MODIFIED (`save_acl`
does not touch it), what `save_acl` writes otherwise. -/
def acl_left (g : Globals) (fs : FS) (d : attribute_def) (a : Attribute) : Option Bytes :=
  if a.at_flags &&& ATR_VFLAG_MODIFY = 0 then fs (acl_path g d) else acl_expected d a

/-- What `recov_acl` makes of the target attribute `z` and the ACL file `file` when none
of its system calls fails: nothing when the file is absent or empty or when decode
fails; otherwise the file followed by NUL is decoded into a scratch attribute, which is
applied to `z` with set mode SET. -/
def acl_read (d : attribute_def) (z : Attribute) (file : Option Bytes) : Attribute :=
  match file with
  | none => z
  | some c =>
    if c = [] then z
    else if (d.at_decode (clear_attr d) d.at_name (c ++ [0])).1 < 0 then z
    else (d.at_set z (d.at_decode (clear_attr d) d.at_name (c ++ [0])).2 .SET).2

/-- Every system call of a `save_acl` call succeeds at once. -/
def AclSaveEnv.all_ok (e : AclSaveEnv) : Prop :=
  e.open_fault = none ∧ (∃ os, e.writes = .full :: os) ∧ e.rename_fault = none ∧
    e.unlink_fault = none

/-- Every system call of a full save succeeds at once. -/
def SaveEnv.all_ok (env : SaveEnv) : Prop :=
  env.open_fault = none ∧ env.budget = none ∧ env.flush_fault = false ∧
    env.rename_fault = none ∧ ∀ i, (env.acl i).all_ok

/-- Every system call of a `recov_acl` call succeeds. -/
def AclRecovEnv.all_ok (e : AclRecovEnv) : Prop :=
  e.open_fault = none ∧ e.fstat_fault = false ∧ e.malloc_fault = false ∧ e.read = .full

/-- Every system call of a `svr_recov_fs` call succeeds. -/
def RecovEnv.all_ok (env : RecovEnv) : Prop :=
  env.open_fault = none ∧ env.read = .full ∧ env.attr_read_fault = false ∧
    ∀ i, (env.acl i).all_ok

/-- Example global data. -/
def ex_globals : Globals :=
  ⟨"/priv/", "/priv/serverdb", "/priv/serverdb.new", "/priv/scheddb", "/priv/scheddb.new", 10⟩

/-- Example codec for the slot `name` of type `ty`: the value text of an attribute is its
payload, the linear entry is the slot tag, the payload length and the payload. Decoding
and setting raise the flags `SET` and `MODIFY`. -/
def ex_codec (name : String) (ty tag : Nat) : attribute_def where
  at_name := name
  at_type := ty
  at_encode := fun a =>
    if a.at_flags &&& ATR_VFLAG_SET = 0 then some []
    else
      some [⟨name, a.at_val ++ [0], (a.at_val.length : Int) + 1,
        tag :: a.at_val.length :: a.at_val⟩]
  at_decode := fun t _ buf => (0, { t with at_flags := 3, at_val := buf.dropLast })
  at_set := fun p new _ => (0, { p with at_flags := p.at_flags ||| 3, at_val := new.at_val })
  at_action := none

/-- Example parser of the entries of `ex_codec`: the tag 1 is the slot `max_jobs`, any
other tag the slot `acl_users`. -/
def ex_parse : EntryParser
  | t :: n :: rest =>
    if n ≤ rest.length then
      some (⟨if t = 1 then "max_jobs" else "acl_users", rest.take n ++ [0], (n : Int) + 1,
        t :: n :: rest.take n⟩, rest.drop n)
    else none
  | _ => none

/-- Example schema entry of an ACL attribute. -/
def ex_acl_def : attribute_def :=
  ex_codec "acl_users" ATR_TYPE_ACL 2

/-- Example schema entry whose encode yields an entry of length 0. -/
def ex_zero_def : attribute_def :=
  { ex_acl_def with at_encode := fun _ => some [⟨"acl_users", [], 0, []⟩] }

/-- Example file system holding one ACL file. -/
def ex_fs_acl : FS :=
  fun p => if p = "/priv/svracl/acl_users" then some [97] else none

/-- Example environment of `recov_acl` in which every call succeeds. -/
def ex_recov_ok : AclRecovEnv :=
  ⟨none, false, false, .full⟩

/-- Example file system after the ACL file was rewritten with the text `bc`. -/
def ex_fs_saved : FS :=
  ((save_acl ex_globals ex_fs_acl ⟨3, ATR_TYPE_ACL, [98, 99]⟩ ex_acl_def PBS_SVRACL "acl_users"
    ⟨none, [.full], none, none⟩).map (fun r => r.2.2)).getD ex_fs_acl

/-- Example layout of the quick save area: one cell for each field. -/
def ex_layout : QsLayout where
  size := 4
  toBytes := fun q => [q.sv_numjobs, q.sv_numque, q.sv_jobidnumber, q.sv_savetm]
  ofBytes := fun b => ⟨b.getD 0 0, b.getD 1 0, b.getD 2 0, b.getD 3 0⟩
  length_toBytes := fun _ => rfl
  ofBytes_toBytes := fun _ => rfl

/-- Example schema: one plain attribute and one ACL. -/
def ex_defs : List attribute_def :=
  [ex_codec "max_jobs" 1 1, ex_acl_def]

/-- Example server: both attributes are set and modified, the last save was at time 5. -/
def ex_server : server :=
  ⟨⟨1, 2, 3, 5⟩, [⟨3, 1, [100]⟩, ⟨3, ATR_TYPE_ACL, [97, 44, 98]⟩]⟩

/-- Example environment of a save in which every call succeeds at once. -/
def ex_save_ok : SaveEnv :=
  ⟨none, [.full], none, false, none, fun _ => ⟨none, [.full], none, none⟩⟩

/-- Example file system: a committed server file and a longer staging file left by an
earlier save. -/
def ex_fs_server : FS :=
  fun p =>
    if p = "/priv/serverdb" then some [0, 0, 0, 1, 1, 1, 100]
    else if p = "/priv/serverdb.new" then some [9, 9, 9, 9, 9, 9, 9, 9, 9]
    else none

/-- Example allocator of scheduler objects: one unset attribute. -/
def ex_sched_alloc (name : String) : Option pbs_sched :=
  some ⟨name, [⟨0, 1, []⟩]⟩

/-- Example environment of a save in which the device accepts two more bytes. -/
def ex_save_short : SaveEnv :=
  ⟨none, [.full], some 2, false, none, fun _ => ⟨none, [.full], none, none⟩⟩

/-- Example file system after the quick save of the example server. -/
def ex_fs_quick : FS :=
  ((svr_save_fs ex_globals ex_layout ex_defs ex_server SVR_SAVE_QUICK ex_fs_server
    ex_save_ok).map (fun r => r.2.2)).getD ex_fs_server

/-- Example file system after the failed full save of the example server. -/
def ex_fs_failed : FS :=
  ((svr_save_fs ex_globals ex_layout ex_defs ex_server SVR_SAVE_FULL ex_fs_server
    ex_save_short).map (fun r => r.2.2)).getD ex_fs_server

/-- Clearing MODIFY leaves the MODIFY bit clear. -/
theorem clear_flag_modify_and (f : Nat) :
    clear_flag f ATR_VFLAG_MODIFY &&& ATR_VFLAG_MODIFY = 0 := by
  unfold clear_flag ATR_VFLAG_MODIFY
  rw [Nat.and_assoc]
  have h : (0xFFFF ^^^ 2) &&& 2 = 0 := by decide
  rw [h, Nat.and_zero]

/-- Clearing MODIFY changes no other bit of a 16 bit flag word. -/
theorem clear_flag_modify_testBit (f : Nat) (hf : f < 65536) (i : Nat) (hi : i ≠ 1) :
    (clear_flag f ATR_VFLAG_MODIFY).testBit i = f.testBit i := by
  unfold clear_flag ATR_VFLAG_MODIFY
  rw [Nat.testBit_and]
  by_cases h16 : i < 16
  · have : Nat.testBit (0xFFFF ^^^ 2) i = true := by
      interval_cases i <;> first | rfl | exact absurd rfl hi
    rw [this, Bool.and_true]
  · have h1 : f.testBit i = false := by
      apply Nat.testBit_lt_two_pow
      calc f < 2 ^ 16 := hf
        _ ≤ 2 ^ i := Nat.pow_le_pow_right (by norm_num) (by omega)
    rw [h1, Bool.false_and]

/-- Clearing MODIFY twice is clearing it once. -/
theorem clear_flag_idem (f : Nat) :
    clear_flag (clear_flag f ATR_VFLAG_MODIFY) ATR_VFLAG_MODIFY =
      clear_flag f ATR_VFLAG_MODIFY := by
  unfold clear_flag
  rw [Nat.and_assoc, Nat.and_self]

/-- A file that was just put is found. -/
theorem FS.put_same (fs : FS) (p : String) (c : Option Bytes) : fs.put p c p = c := by
  simp [FS.put]

/-- A put does not change another path. -/
theorem FS.put_other (fs : FS) (p q : String) (c : Option Bytes) (h : q ≠ p) :
    fs.put p c q = fs q := by
  simp [FS.put, h]

/-- The staging name of a file is not the name of the file. -/
theorem append_new_ne (s : String) : s ++ ".new" ≠ s := by
  intro h
  have := congrArg String.length h
  rw [String.length_append] at this
  have h4 : ".new".length = 4 := by decide
  omega

/-- Clearing MODIFY does not change the SET bit. -/
theorem clear_flag_set (f : Nat) :
    clear_flag f ATR_VFLAG_MODIFY &&& ATR_VFLAG_SET = f &&& ATR_VFLAG_SET := by
  unfold clear_flag ATR_VFLAG_MODIFY ATR_VFLAG_SET
  rw [Nat.and_assoc]
  have h : (0xFFFF ^^^ 2) &&& 1 = 1 := by decide
  rw [h]

/-- The conversion to `size_t` of a length that is not negative is that length. -/
theorem size_t_of_int_natCast (n : Nat) : size_t_of_int (n : Int) = n := by
  unfold size_t_of_int
  rw [if_pos (Int.ofNat_nonneg n)]
  exact Int.toNat_ofNat n

/-- A `write` changes no file but the one of the descriptor. -/
theorem sys_write_frame (fs : FS) (fd : Fd) (buf : Bytes) (count : Nat) (o : WriteOutcome)
    (p : String) (hp : p ≠ fd.path) : (sys_write fs fd buf count o).2.1 p = fs p := by
  cases o <;> simp [sys_write, FS.put, hp]

/-- The write loop changes no file but the one of the descriptor. -/
theorem write_retry_frame (buf : Bytes) (count : Nat) (expect : Int)
    (ws : List WriteOutcome) :
    ∀ (fs : FS) (fd : Fd) (b : Bool) (fs1 : FS),
      write_retry fs fd buf count expect ws = some (b, fs1) →
      ∀ p, p ≠ fd.path → fs1 p = fs p := by
  induction ws with
  | nil => intro fs fd b fs1 h; simp [write_retry] at h
  | cons o os ih =>
    intro fs fd b fs1 h p hp
    unfold write_retry at h
    cases o with
    | full =>
      simp only [sys_write] at h
      split at h
      · simp only [Option.some.injEq, Prod.mk.injEq] at h
        rw [← h.2]; simp [FS.put, hp]
      · simp [WriteOutcome.errno_of, EINTR] at h
        rw [← h.2]; simp [FS.put, hp]
    | short k =>
      simp only [sys_write] at h
      split at h
      · simp only [Option.some.injEq, Prod.mk.injEq] at h
        rw [← h.2]; simp [FS.put, hp]
      · simp [WriteOutcome.errno_of, EINTR] at h
        rw [← h.2]; simp [FS.put, hp]
    | error e =>
      simp only [sys_write] at h
      split at h
      · simp only [Option.some.injEq, Prod.mk.injEq] at h
        rw [← h.2]
      · split at h
        · exact ih fs fd b fs1 h p hp
        · simp only [Option.some.injEq, Prod.mk.injEq] at h
          rw [← h.2]

/-- When the write loop ends normally, one full write of the requested bytes was done at the
offset of the descriptor, and nothing else. -/
theorem write_retry_true (buf : Bytes) (count : Nat) (ws : List WriteOutcome) :
    ∀ (fs : FS) (fd : Fd) (fs1 : FS),
      write_retry fs fd buf count (count : Int) ws = some (true, fs1) →
      (buf.take count).length = count ∧
      fs1 = fs.put fd.path (some (overlay ((fs fd.path).getD []) fd.pos (buf.take count))) := by
  induction ws with
  | nil => intro fs fd fs1 h; simp [write_retry] at h
  | cons o os ih =>
    intro fs fd fs1 h
    unfold write_retry at h
    cases o with
    | full =>
      simp only [sys_write] at h
      split at h
      · rename_i hc
        simp only [Option.some.injEq, Prod.mk.injEq, true_and] at h
        exact ⟨by exact_mod_cast hc, h.symm⟩
      · simp [WriteOutcome.errno_of, EINTR] at h
    | short k =>
      simp only [sys_write] at h
      split at h
      · rename_i hc
        simp only [Option.some.injEq, Prod.mk.injEq, true_and] at h
        have hc1 : ((buf.take count).take k).length = count := by exact_mod_cast hc
        have hle : (buf.take count).length ≤ count := by
          rw [List.length_take]; exact Nat.min_le_left _ _
        have hle2 : ((buf.take count).take k).length ≤ (buf.take count).length := by
          rw [List.length_take (l := buf.take count)]; exact Nat.min_le_right _ _
        have heq : (buf.take count).take k = buf.take count := by
          apply List.take_of_length_le
          have : (buf.take count).length = count := by omega
          rw [List.length_take (l := buf.take count)] at hc1
          omega
        rw [heq] at h
        exact ⟨by omega, h.symm⟩
      · simp [WriteOutcome.errno_of, EINTR] at h
    | error e =>
      simp only [sys_write] at h
      split at h
      · rename_i hc
        exfalso
        have : (0 : Int) ≤ count := Int.ofNat_nonneg _
        omega
      · split at h
        · exact ih fs fd fs1 h
        · simp at h

/-- What `save_acl` leaves in the attribute: either nothing was modified, or only the flag was
cleared -/
theorem save_acl_attr_cases (g : Globals) (fs : FS) (attr : Attribute) (pdef : attribute_def)
    (subdir name : String) (env : AclSaveEnv) (rc : Int) (attr1 : Attribute) (fs1 : FS)
    (h : save_acl g fs attr pdef subdir name env = some (rc, attr1, fs1)) :
    (attr.at_flags &&& ATR_VFLAG_MODIFY = 0 ∧ rc = 0 ∧ attr1 = attr ∧ fs1 = fs) ∨
    (attr.at_flags &&& ATR_VFLAG_MODIFY ≠ 0 ∧
      attr1 = { attr with at_flags := clear_flag attr.at_flags ATR_VFLAG_MODIFY }) := by
  unfold save_acl at h
  split at h
  · left
    simp only [Option.some.injEq, Prod.mk.injEq] at h
    obtain ⟨h1, h2, h3⟩ := h
    exact ⟨by assumption, h1.symm, h2.symm, h3.symm⟩
  · right
    refine ⟨by assumption, ?_⟩
    simp only at h
    split at h
    · simp only [Option.some.injEq, Prod.mk.injEq] at h
      exact h.2.1.symm
    · split at h
      · simp only [Option.some.injEq, Prod.mk.injEq] at h
        exact h.2.1.symm
      · split at h
        · simp only [Option.some.injEq, Prod.mk.injEq] at h
          exact h.2.1.symm
        · split at h
          · exact absurd h (by simp)
          · simp only [Option.some.injEq, Prod.mk.injEq] at h
            exact h.2.1.symm
          · split at h
            · simp only [Option.some.injEq, Prod.mk.injEq] at h
              exact h.2.1.symm
            · simp only [Option.some.injEq, Prod.mk.injEq] at h
              rw [← h.2.1, clear_flag_idem]

/-! ## Lemmas on the buffered writer -/

/-- A `write` keeps the descriptor on its file. -/
theorem sys_write_path (fs : FS) (fd : Fd) (buf : Bytes) (count : Nat) (o : WriteOutcome) :
    (sys_write fs fd buf count o).2.2.path = fd.path := by
  cases o <;> rfl

/-- The writer stays on its file (`save_struct`). -/
theorem save_struct_path (fs : FS) (st : SaveState) (buf : Bytes) (len : Nat) :
    (save_struct fs st buf len).2.2.fd.path = st.fd.path := by
  unfold save_struct
  split
  · exact sys_write_path _ _ _ _ _
  · split
    · exact sys_write_path _ _ _ _ _
    · exact sys_write_path _ _ _ _ _

/-- The writer changes no file but its own (`save_struct`). -/
theorem save_struct_frame (fs : FS) (st : SaveState) (buf : Bytes) (len : Nat) (p : String)
    (hp : p ≠ st.fd.path) : (save_struct fs st buf len).2.1 p = fs p := by
  unfold save_struct
  split
  · exact sys_write_frame fs st.fd buf len .full p hp
  · split
    · exact sys_write_frame fs st.fd buf len .full p hp
    · exact sys_write_frame fs st.fd buf len (.short _) p hp

/-- The writer stays on its file (`save_entries`). -/
theorem save_entries_path (es : List svrattrl) : ∀ (fs : FS) (st : SaveState),
    (save_entries fs st es).2.2.fd.path = st.fd.path := by
  induction es with
  | nil => intro fs st; rfl
  | cons e es ih =>
    intro fs st
    unfold save_entries
    simp only
    split
    · exact save_struct_path _ _ _ _
    · rw [ih]; exact save_struct_path _ _ _ _

/-- The writer changes no file but its own (`save_entries`). -/
theorem save_entries_frame (es : List svrattrl) : ∀ (fs : FS) (st : SaveState) (p : String),
    p ≠ st.fd.path → (save_entries fs st es).2.1 p = fs p := by
  induction es with
  | nil => intro fs st p _; rfl
  | cons e es ih =>
    intro fs st p hp
    unfold save_entries
    simp only
    split
    · exact save_struct_frame _ _ _ _ p hp
    · rw [ih _ _ p (by rw [save_struct_path]; exact hp)]
      exact save_struct_frame _ _ _ _ p hp

/-- The writer stays on its file (`save_attr_fs`). -/
theorem save_attr_fs_path (ds : List attribute_def) : ∀ (as : List Attribute) (fs : FS)
    (st : SaveState), (save_attr_fs fs st ds as).2.2.fd.path = st.fd.path := by
  induction ds with
  | nil => intro as fs st; simp [save_attr_fs]
  | cons d ds ih =>
    intro as fs st
    cases as with
    | nil => simp [save_attr_fs]
    | cons a as =>
      unfold save_attr_fs
      split
      · split
        · rfl
        · simp only
          split
          · exact save_entries_path _ _ _
          · rw [ih]; exact save_entries_path _ _ _
      · exact ih _ _ _

/-- The writer changes no file but its own (`save_attr_fs`). -/
theorem save_attr_fs_frame (ds : List attribute_def) : ∀ (as : List Attribute) (fs : FS)
    (st : SaveState) (p : String),
    p ≠ st.fd.path → (save_attr_fs fs st ds as).2.1 p = fs p := by
  induction ds with
  | nil => intro as fs st p _; simp [save_attr_fs]
  | cons d ds ih =>
    intro as fs st p hp
    cases as with
    | nil => simp [save_attr_fs]
    | cons a as =>
      unfold save_attr_fs
      split
      · split
        · rfl
        · simp only
          split
          · exact save_entries_frame _ _ _ p hp
          · rw [ih _ _ _ p (by rw [save_entries_path]; exact hp)]
            exact save_entries_frame _ _ _ p hp
      · exact ih _ _ _ p hp

/-- A successful open for writing gives a descriptor at offset 0 and changes no other file. -/
theorem sys_open_wronly_creat_ok (fs : FS) (path : String) (trunc : Bool) (fault : Option Nat)
    (fd : Fd) (fs1 : FS) (h : sys_open_wronly_creat fs path trunc fault = .ok (fd, fs1)) :
    fd = ⟨path, 0⟩ ∧ ∀ p, p ≠ path → fs1 p = fs p := by
  unfold sys_open_wronly_creat at h
  split at h
  · cases h
  · split at h
    · injection h with h; injection h with h1 h2
      refine ⟨h1.symm, fun p hp => ?_⟩
      rw [← h2]; simp [FS.put, hp]
    · injection h with h; injection h with h1 h2
      refine ⟨h1.symm, fun p hp => ?_⟩
      rw [← h2]
      split
      · simp [FS.put, hp]
      · rfl

/-- A successful open without `O_TRUNC` of an existing file changes nothing. -/
theorem sys_open_keep_ok (fs : FS) (path : String) (fault : Option Nat)
    (fd : Fd) (fs1 : FS) (c : Bytes) (hc : fs path = some c)
    (h : sys_open_wronly_creat fs path false fault = .ok (fd, fs1)) :
    fd = ⟨path, 0⟩ ∧ fs1 = fs := by
  unfold sys_open_wronly_creat at h
  split at h
  · cases h
  · rw [hc] at h
    simp only at h
    injection h with h; injection h with h1 h2
    exact ⟨h1.symm, by simpa using h2.symm⟩

/-- Writing at offset 0 replaces the first bytes and keeps the rest. -/
theorem overlay_zero (old d : Bytes) : overlay old 0 d = d ++ old.drop d.length := by
  simp [overlay]

/-- A write interrupted by a signal is retried with nothing changed. -/
theorem write_retry_eintr (fs : FS) (fd : Fd) (buf : Bytes) (count : Nat)
    (os : List WriteOutcome) :
    write_retry fs fd buf count (count : Int) (.error EINTR :: os) =
      write_retry fs fd buf count (count : Int) os := by
  conv => lhs; unfold write_retry
  simp only [sys_write, WriteOutcome.errno_of]
  have h : ¬ ((-1 : Int) = (count : Int)) := by
    have : (0 : Int) ≤ count := Int.ofNat_nonneg _
    omega
  rw [if_neg h]
  simp

/-- Any other error of `write` ends the loop with a failure. -/
theorem write_retry_error (fs : FS) (fd : Fd) (buf : Bytes) (count e : Nat)
    (os : List WriteOutcome) (he : e ≠ EINTR) :
    write_retry fs fd buf count (count : Int) (.error e :: os) = some (false, fs) := by
  unfold write_retry
  simp only [sys_write, WriteOutcome.errno_of]
  have h : ¬ ((-1 : Int) = (count : Int)) := by
    have : (0 : Int) ≤ count := Int.ofNat_nonneg _
    omega
  rw [if_neg h, if_neg (by simp [he])]

/-- A short write ends the loop with a failure. -/
theorem write_retry_short (fs : FS) (fd : Fd) (buf : Bytes) (count k : Nat)
    (os : List WriteOutcome) (hk : k < count) :
    ∃ fs1, write_retry fs fd buf count (count : Int) (.short k :: os) = some (false, fs1) := by
  unfold write_retry
  simp only [sys_write, WriteOutcome.errno_of]
  have hlen : ((buf.take count).take k).length ≤ k := by
    rw [List.length_take]; exact Nat.min_le_left _ _
  have h : ¬ ((((buf.take count).take k).length : Int) = (count : Int)) := by
    omega
  rw [if_neg h, if_neg (by simp [EINTR])]
  exact ⟨_, rfl⟩

/-! ## Lemmas on the attribute stream -/

/-- A successful open with `O_TRUNC` leaves the file empty. -/
theorem sys_open_trunc_ok (fs : FS) (path : String) (fault : Option Nat) (fd : Fd) (fs1 : FS)
    (h : sys_open_wronly_creat fs path true fault = .ok (fd, fs1)) :
    fd = ⟨path, 0⟩ ∧ fs1 = fs.put path (some []) := by
  unfold sys_open_wronly_creat at h
  split at h
  · cases h
  · split at h <;> · injection h with h; injection h with h1 h2; exact ⟨h1.symm, by simpa using h2.symm⟩

/-- A successful `rename` moves the content and removes the old name. -/
theorem sys_rename_ok (fs : FS) (old new : String) (fault : Option Nat) (hne : old ≠ new)
    (h : ¬ (sys_rename fs old new fault).1 < 0) :
    ∃ c, fs old = some c ∧ (sys_rename fs old new fault).2 = (fs.put new (some c)).put old none := by
  unfold sys_rename at h ⊢
  split at h
  · simp at h
  · split at h
    · simp at h
    · rename_i c hc
      refine ⟨c, hc, ?_⟩
      simp [hc, hne]

/-- When `save_acl` returns 0 for a set and modified attribute whose first entry has a
length that is not negative, the ACL file holds the text of the first entry, the staging
name is gone and no other file has changed. -/
theorem save_acl_success (g : Globals) (fs : FS) (attr : Attribute) (pdef : attribute_def)
    (subdir name : String) (env : AclSaveEnv) (attr1 : Attribute) (fs1 : FS)
    (head : List svrattrl)
    (hmod : attr.at_flags &&& ATR_VFLAG_MODIFY ≠ 0) (hset : attr.at_flags &&& ATR_VFLAG_SET ≠ 0)
    (henc : pdef.at_encode { attr with at_flags := clear_flag attr.at_flags ATR_VFLAG_MODIFY }
      = some head)
    (hwf : ∀ pentry rest, head = pentry :: rest → 0 ≤ pentry.al_valln - 1)
    (h : save_acl g fs attr pdef subdir name env = some (0, attr1, fs1)) :
    fs1 (acl_filename g subdir name) = some (acl_text head) ∧
    fs1 (acl_filename g subdir name ++ ".new") = none ∧
    ∀ p, p ≠ acl_filename g subdir name → p ≠ acl_filename g subdir name ++ ".new" →
      fs1 p = fs p := by
  unfold save_acl at h
  rw [if_neg hmod] at h
  simp only at h
  rw [clear_flag_set, if_neg hset] at h
  split at h
  · simp at h
  · rename_i fds fsa hopen
    obtain ⟨hfd, hfsa⟩ := sys_open_trunc_ok _ _ _ _ _ hopen
    rw [henc] at h
    simp only at h
    split at h
    · simp at h
    · simp at h
    · rename_i fs2 hw
      split at h
      · simp at h
      · rename_i hrc
        simp only [Option.some.injEq, Prod.mk.injEq, true_and] at h
        obtain ⟨c, hc, hren⟩ := sys_rename_ok _ _ _ _ (append_new_ne _) hrc
        have hfs1 : fs1 = (fs2.put (acl_filename g subdir name) (some c)).put
            (acl_filename g subdir name ++ ".new") none := by rw [← hren, h.2]
        have key : fs2 = fsa.put (acl_filename g subdir name ++ ".new")
            (some (acl_text head)) := by
          cases head with
          | nil =>
            simp only [Option.some.injEq, Prod.mk.injEq, true_and] at hw
            rw [← hw, hfsa]
            funext q
            by_cases hq : q = acl_filename g subdir name ++ ".new" <;> simp [FS.put, acl_text, hq]
          | cons pentry rest =>
            simp only at hw
            obtain ⟨n, hn⟩ := Int.eq_ofNat_of_zero_le (hwf pentry rest rfl)
            simp only [acl_text]
            rw [hn, size_t_of_int_natCast] at hw ⊢
            obtain ⟨-, hfs2⟩ := write_retry_true _ _ _ _ _ _ hw
            rw [hfs2, hfd, hfsa]
            funext q
            by_cases hq : q = acl_filename g subdir name ++ ".new" <;> simp [FS.put, overlay, hq]
        refine ⟨?_, ?_, ?_⟩
        · rw [hfs1, FS.put_other _ _ _ _ (append_new_ne _).symm, FS.put_same]
          rw [key, FS.put_same] at hc
          rw [← hc]
        · rw [hfs1, FS.put_same]
        · intro p hp1 hp2
          rw [hfs1, FS.put_other _ _ _ _ hp2, FS.put_other _ _ _ _ hp1, key,
            FS.put_other _ _ _ _ hp2, hfsa, FS.put_other _ _ _ _ hp2]

/-- With `al_valln` 0 the loop compares the result of `write` with -1: a failed write
ends it, the empty staging file is renamed and `save_acl` returns 0. -/
theorem save_acl_zero_length :
    (save_acl ex_globals ex_fs_acl ⟨3, ATR_TYPE_ACL, []⟩ ex_zero_def PBS_SVRACL "acl_users"
        ⟨none, [.error 5], none, none⟩).map
      (fun r => (r.1, r.2.2 (acl_filename ex_globals PBS_SVRACL "acl_users")))
      = some (0, some []) := by
  decide

/-- Without an ACL file `recov_acl` changes nothing and calls nothing. -/
theorem recov_acl_no_file (g : Globals) (fs : FS) (pattr : Attribute) (pdef : attribute_def)
    (subdir name : String) (env : AclRecovEnv) (h : fs (acl_filename g subdir name) = none) :
    recov_acl g fs pattr pdef (some subdir) name env = (pattr, []) := by
  unfold recov_acl
  simp only
  unfold acl_filename at h
  unfold sys_open_rdonly
  cases env.open_fault <;> simp [h]

/-- With an empty ACL file `recov_acl` changes nothing and calls nothing. -/
theorem recov_acl_empty_file (g : Globals) (fs : FS) (pattr : Attribute) (pdef : attribute_def)
    (subdir name : String) (env : AclRecovEnv) (h : fs (acl_filename g subdir name) = some []) :
    recov_acl g fs pattr pdef (some subdir) name env = (pattr, []) := by
  unfold recov_acl
  simp only
  unfold acl_filename at h
  unfold sys_open_rdonly
  cases env.open_fault <;> simp [h]

/-- With a non-empty ACL file and no failing call, `recov_acl` decodes the content followed by
NUL and sets the target from the result. -/
theorem recov_acl_reads (g : Globals) (fs : FS) (pattr : Attribute) (pdef : attribute_def)
    (subdir name : String) (env : AclRecovEnv) (c : Bytes)
    (h : fs (acl_filename g subdir name) = some c) (hc : c ≠ [])
    (hopen : env.open_fault = none) (hfstat : env.fstat_fault = false)
    (hmalloc : env.malloc_fault = false) (hread : env.read = .full) :
    recov_acl g fs pattr pdef (some subdir) name env =
      if (pdef.at_decode (clear_attr pdef) pdef.at_name (c ++ [0])).1 < 0 then
        (pattr, [.decode pdef.at_name (c ++ [0]), .free])
      else
        ((pdef.at_set pattr (pdef.at_decode (clear_attr pdef) pdef.at_name (c ++ [0])).2 .SET).2,
          [.decode pdef.at_name (c ++ [0]),
            .set (pdef.at_decode (clear_attr pdef) pdef.at_name (c ++ [0])).2 .SET, .free]) := by
  unfold recov_acl
  simp only
  unfold acl_filename at h
  have hlen : c.length ≠ 0 := by
    intro h0; exact hc (List.length_eq_zero.mp h0)
  simp [sys_open_rdonly, hopen, h, hfstat, hmalloc, hread, sys_read, hlen]

/-- An ACL attribute that was never set and has no ACL file comes back as the default. -/
theorem slot_matches_never_set (g : Globals) (fs : FS) (d : attribute_def) (a z : Attribute)
    (hs : a.at_flags &&& ATR_VFLAG_SET = 0) (hm : a.at_flags &&& ATR_VFLAG_MODIFY = 0)
    (hf : fs (acl_path g d) = none) :
    slot_matches a z (acl_read d z (acl_left g fs d a)) := by
  unfold acl_left
  rw [if_pos hm, hf]
  exact ⟨fun h => absurd hs h, fun _ => rfl⟩

/-! ## Lemmas on the loops over the attribute array -/

/-- C10: whatever the outcome of its system calls, when `save_acl` returns the MODIFIED
flag of the attribute is clear, every other flag bit, the value and the type are
unchanged; when MODIFIED was clear on entry the call returns 0 with the attribute and
the file system unchanged, and a repeated call on the result returns 0 and changes
nothing. -/
theorem save_acl_flags (g : Globals) (fs : FS) (attr : Attribute) (pdef : attribute_def)
    (subdir name : String) (env : AclSaveEnv) (rc : Int) (attr1 : Attribute) (fs1 : FS)
    (hw : attr.at_flags < 65536)
    (h : save_acl g fs attr pdef subdir name env = some (rc, attr1, fs1)) :
    attr1.at_flags &&& ATR_VFLAG_MODIFY = 0 ∧
    (∀ i, i ≠ 1 → attr1.at_flags.testBit i = attr.at_flags.testBit i) ∧
    attr1.at_val = attr.at_val ∧ attr1.at_type = attr.at_type ∧
    (attr.at_flags &&& ATR_VFLAG_MODIFY = 0 → rc = 0 ∧ attr1 = attr ∧ fs1 = fs ∧
      ∀ env0, save_acl g fs attr pdef subdir name env0 = some (0, attr, fs)) ∧
    (∀ env2, save_acl g fs1 attr1 pdef subdir name env2 = some (0, attr1, fs1)) := by
  have hclr : attr1.at_flags &&& ATR_VFLAG_MODIFY = 0 := by
    rcases save_acl_attr_cases g fs attr pdef subdir name env rc attr1 fs1 h with
      ⟨h0, -, h2, -⟩ | ⟨-, h2⟩
    · rw [h2]; exact h0
    · rw [h2]; exact clear_flag_modify_and _
  refine ⟨hclr, ?_, ?_, ?_, ?_, ?_⟩
  · intro i hi
    rcases save_acl_attr_cases g fs attr pdef subdir name env rc attr1 fs1 h with
      ⟨-, -, h2, -⟩ | ⟨-, h2⟩
    · rw [h2]
    · rw [h2]; exact clear_flag_modify_testBit _ hw i hi
  · rcases save_acl_attr_cases g fs attr pdef subdir name env rc attr1 fs1 h with
      ⟨-, -, h2, -⟩ | ⟨-, h2⟩ <;> rw [h2]
  · rcases save_acl_attr_cases g fs attr pdef subdir name env rc attr1 fs1 h with
      ⟨-, -, h2, -⟩ | ⟨-, h2⟩ <;> rw [h2]
  · intro h0
    rcases save_acl_attr_cases g fs attr pdef subdir name env rc attr1 fs1 h with
      ⟨-, h1, h2, h3⟩ | ⟨hne, -⟩
    · refine ⟨h1, h2, h3, fun env0 => ?_⟩
      unfold save_acl
      rw [if_pos h0]
    · exact absurd h0 hne
  · intro env2
    unfold save_acl
    rw [if_pos hclr]

/-- Witness for C10: the open of the staging file fails, the call returns -1 and the
flag stays cleared. -/
theorem save_acl_flags_witness :
    (3 : Nat) < 65536 ∧
    save_acl ex_globals ex_fs_acl ⟨3, ATR_TYPE_ACL, [98, 99]⟩ ex_acl_def PBS_SVRACL "acl_users"
      ⟨some 13, [], none, none⟩ = some (-1, ⟨1, ATR_TYPE_ACL, [98, 99]⟩, ex_fs_acl) ∧
    (⟨1, ATR_TYPE_ACL, [98, 99]⟩ : Attribute).at_flags &&& ATR_VFLAG_MODIFY = 0 :=
  ⟨by decide, rfl,
    (save_acl_flags ex_globals ex_fs_acl ⟨3, ATR_TYPE_ACL, [98, 99]⟩ ex_acl_def PBS_SVRACL
      "acl_users" ⟨some 13, [], none, none⟩ (-1) ⟨1, ATR_TYPE_ACL, [98, 99]⟩ ex_fs_acl
      (by decide) rfl).1⟩

/-- C5 as stated fails: with SET clear and MODIFIED clear `save_acl` returns 0 and the
ACL file is still there, and the following `recov_acl` decodes it and sets the
attribute; with MODIFIED set and a failing `unlink` the file is still there too. -/
theorem save_acl_unset_counterexample :
    (⟨0, ATR_TYPE_ACL, []⟩ : Attribute).at_flags &&& ATR_VFLAG_SET = 0 ∧
    (save_acl ex_globals ex_fs_acl ⟨0, ATR_TYPE_ACL, []⟩ ex_acl_def PBS_SVRACL "acl_users"
        ⟨none, [], none, none⟩).map
      (fun r => (r.1, r.2.2 (acl_filename ex_globals PBS_SVRACL "acl_users"),
        recov_acl ex_globals r.2.2 ⟨0, ATR_TYPE_ACL, []⟩ ex_acl_def (some PBS_SVRACL)
          "acl_users" ex_recov_ok))
      = some (0, some [97], (⟨3, ATR_TYPE_ACL, [97]⟩,
          [.decode "acl_users" [97, 0], .set ⟨3, ATR_TYPE_ACL, [97]⟩ .SET, .free])) ∧
    (⟨2, ATR_TYPE_ACL, []⟩ : Attribute).at_flags &&& ATR_VFLAG_SET = 0 ∧
    (save_acl ex_globals ex_fs_acl ⟨2, ATR_TYPE_ACL, []⟩ ex_acl_def PBS_SVRACL "acl_users"
        ⟨none, [], none, some 13⟩).map
      (fun r => (r.1, r.2.2 (acl_filename ex_globals PBS_SVRACL "acl_users")))
      = some (0, some [97]) := by
  decide

/-- C5 (amended): for an attribute whose SET flag is clear and whose MODIFIED flag is
set, when the `unlink` call does not fail, `save_acl` returns 0, afterwards the ACL file
does not exist and no other file has changed, and a following `recov_acl` on the same
name leaves the target attribute as it was and calls neither decode nor set. -/
theorem save_acl_unset_deletes (g : Globals) (fs : FS) (attr pattr : Attribute)
    (pdef : attribute_def) (subdir name : String) (env : AclSaveEnv) (envr : AclRecovEnv)
    (hset : attr.at_flags &&& ATR_VFLAG_SET = 0)
    (hmod : attr.at_flags &&& ATR_VFLAG_MODIFY ≠ 0)
    (hunlink : env.unlink_fault = none) :
    ∃ attr1 fs1, save_acl g fs attr pdef subdir name env = some (0, attr1, fs1) ∧
      fs1 (acl_filename g subdir name) = none ∧
      (∀ p, p ≠ acl_filename g subdir name → fs1 p = fs p) ∧
      recov_acl g fs1 pattr pdef (some subdir) name envr = (pattr, []) := by
  have hfile : (sys_unlink fs (acl_filename g subdir name) env.unlink_fault).2
      (acl_filename g subdir name) = none := by
    unfold sys_unlink
    rw [hunlink]
    cases hf : fs (acl_filename g subdir name) with
    | none => simpa using hf
    | some c => simp [FS.put]
  refine ⟨{ attr with at_flags := clear_flag attr.at_flags ATR_VFLAG_MODIFY },
    (sys_unlink fs (acl_filename g subdir name) env.unlink_fault).2, ?_, hfile, ?_,
    recov_acl_no_file g _ pattr pdef subdir name envr hfile⟩
  · unfold save_acl
    rw [if_neg hmod]
    simp only
    rw [clear_flag_set, if_pos hset]
  · intro p hp
    unfold sys_unlink
    rw [hunlink]
    cases hf : fs (acl_filename g subdir name) with
    | none => rfl
    | some c => simp [FS.put, hp]

/-- Witness for C5 (amended): an unset, modified ACL attribute whose file exists. -/
theorem save_acl_unset_deletes_witness :
    ∃ attr1 fs1, save_acl ex_globals ex_fs_acl ⟨2, ATR_TYPE_ACL, []⟩ ex_acl_def PBS_SVRACL
        "acl_users" ⟨none, [], none, none⟩ = some (0, attr1, fs1) ∧
      fs1 (acl_filename ex_globals PBS_SVRACL "acl_users") = none ∧
      (∀ p, p ≠ acl_filename ex_globals PBS_SVRACL "acl_users" → fs1 p = ex_fs_acl p) ∧
      recov_acl ex_globals fs1 ⟨0, ATR_TYPE_ACL, []⟩ ex_acl_def (some PBS_SVRACL) "acl_users"
        ex_recov_ok = (⟨0, ATR_TYPE_ACL, []⟩, []) :=
  save_acl_unset_deletes ex_globals ex_fs_acl ⟨2, ATR_TYPE_ACL, []⟩ ⟨0, ATR_TYPE_ACL, []⟩
    ex_acl_def PBS_SVRACL "acl_users" ⟨none, [], none, none⟩ ex_recov_ok (by decide)
    (by decide) rfl

/-- C8 as stated fails for an empty value string: `save_acl` returns 0 and leaves an
empty ACL file, and the following `recov_acl`, all of whose system calls succeed, calls
neither decode nor set and leaves the target attribute unset. -/
theorem acl_text_round_trip_counterexample :
    ex_acl_def.at_encode ⟨1, ATR_TYPE_ACL, []⟩ =
      some [⟨"acl_users", [] ++ [0], (([] : Bytes).length : Int) + 1, [2, 0]⟩] ∧
    (save_acl ex_globals ex_fs_acl ⟨3, ATR_TYPE_ACL, []⟩ ex_acl_def PBS_SVRACL "acl_users"
        ⟨none, [.full], none, none⟩).map
      (fun r => (r.1, r.2.2 (acl_filename ex_globals PBS_SVRACL "acl_users"),
        recov_acl ex_globals r.2.2 ⟨0, ATR_TYPE_ACL, []⟩ ex_acl_def (some PBS_SVRACL)
          "acl_users" ex_recov_ok))
      = some (0, some [], (⟨0, ATR_TYPE_ACL, []⟩, [])) := by
  decide

/-- C8 (amended): for an attribute with MODIFIED and SET both set whose encode yields a
first entry with value string `v` and `al_valln` the length of `v` plus one, when
`save_acl` returns 0 the ACL file holds exactly the bytes of `v`, whatever the file
system held before, and no file exists under the staging name. When `v` is not empty
and the system calls of a following `recov_acl` succeed, the codec's decode is called on
`v` with the NUL appended and, when decode does not fail, its result is given to the
codec's set with mode SET, whose result becomes the target attribute. When `v` is
empty, `recov_acl` calls neither and leaves the target attribute as it was. -/
theorem acl_text_round_trip (g : Globals) (fs : FS) (attr : Attribute) (pdef : attribute_def)
    (subdir name : String) (env : AclSaveEnv) (v : Bytes) (pentry : svrattrl)
    (rest : List svrattrl) (attr1 : Attribute) (fs1 : FS)
    (hmod : attr.at_flags &&& ATR_VFLAG_MODIFY ≠ 0) (hset : attr.at_flags &&& ATR_VFLAG_SET ≠ 0)
    (henc : pdef.at_encode { attr with at_flags := clear_flag attr.at_flags ATR_VFLAG_MODIFY }
      = some (pentry :: rest))
    (hval : pentry.al_value = v ++ [0]) (hln : pentry.al_valln = v.length + 1)
    (h : save_acl g fs attr pdef subdir name env = some (0, attr1, fs1)) :
    fs1 (acl_filename g subdir name) = some v ∧
    fs1 (acl_filename g subdir name ++ ".new") = none ∧
    (v ≠ [] → ∀ (pattr : Attribute) (envr : AclRecovEnv),
      envr.open_fault = none → envr.fstat_fault = false → envr.malloc_fault = false →
      envr.read = .full →
      recov_acl g fs1 pattr pdef (some subdir) name envr =
        if (pdef.at_decode (clear_attr pdef) pdef.at_name (v ++ [0])).1 < 0 then
          (pattr, [.decode pdef.at_name (v ++ [0]), .free])
        else
          ((pdef.at_set pattr (pdef.at_decode (clear_attr pdef) pdef.at_name (v ++ [0])).2
              .SET).2,
            [.decode pdef.at_name (v ++ [0]),
              .set (pdef.at_decode (clear_attr pdef) pdef.at_name (v ++ [0])).2 .SET, .free])) ∧
    (v = [] → ∀ (pattr : Attribute) (envr : AclRecovEnv),
      recov_acl g fs1 pattr pdef (some subdir) name envr = (pattr, [])) := by
  have hlen1 : pentry.al_valln - 1 = (v.length : Int) := by omega
  obtain ⟨hf1, hf2, -⟩ :=
    save_acl_success g fs attr pdef subdir name env attr1 fs1 (pentry :: rest) hmod hset henc
      (fun pe re hh => by cases hh; omega) h
  have htext : acl_text (pentry :: rest) = v := by
    simp only [acl_text]
    rw [hlen1, size_t_of_int_natCast, hval]
    simp
  rw [htext] at hf1
  refine ⟨hf1, hf2, ?_, ?_⟩
  · intro hv pattr envr h1 h2 h3 h4
    exact recov_acl_reads g fs1 pattr pdef subdir name envr v hf1 hv h1 h2 h3 h4
  · intro hv pattr envr
    rw [hv] at hf1
    exact recov_acl_empty_file g fs1 pattr pdef subdir name envr hf1

/-- Witness for C8 (amended): the value string `bc` is saved over an older ACL file. -/
theorem acl_text_round_trip_witness :
    ex_fs_saved (acl_filename ex_globals PBS_SVRACL "acl_users") = some [98, 99] ∧
    ex_fs_saved (acl_filename ex_globals PBS_SVRACL "acl_users" ++ ".new") = none :=
  have h := acl_text_round_trip ex_globals ex_fs_acl ⟨3, ATR_TYPE_ACL, [98, 99]⟩ ex_acl_def
    PBS_SVRACL "acl_users" ⟨none, [.full], none, none⟩ [98, 99]
    ⟨"acl_users", [98, 99, 0], 3, [2, 2, 98, 99]⟩
    [] ⟨1, ATR_TYPE_ACL, [98, 99]⟩ ex_fs_saved (by decide) (by decide) (by decide) rfl rfl rfl
  ⟨h.1, h.2.1⟩

/-- C3: when the staging files are not the committed files, a full `svr_save_fs` that
returns -1 leaves the file `path_svrdb` as it was (its content, or its absence), and a
`sched_save_fs` that returns -1 leaves `path_scheddb` as it was. -/
theorem full_save_failure_keeps_committed (g : Globals) (lay : QsLayout)
    (svr_attr_def sched_attr_def : List attribute_def) (ps ps1 : server) (sched : pbs_sched)
    (mode : Int) (fs fs1 : FS) (env senv : SaveEnv)
    (hsvr : g.path_svrdb_new ≠ g.path_svrdb) (hsched : g.path_scheddb_new ≠ g.path_scheddb) :
    (svr_save_fs g lay svr_attr_def ps SVR_SAVE_FULL fs env = some (-1, ps1, fs1) →
      fs1 g.path_svrdb = fs g.path_svrdb) ∧
    ((sched_save_fs g sched_attr_def sched mode fs senv).1 = -1 →
      (sched_save_fs g sched_attr_def sched mode fs senv).2 g.path_scheddb = fs g.path_scheddb) := by
  constructor
  · intro h
    unfold svr_save_fs at h
    rw [if_neg (by decide)] at h
    split at h
    · simp only [Option.some.injEq, Prod.mk.injEq] at h
      rw [← h.2.2]
    · rename_i sdb fsa hopen
      obtain ⟨hfd, hfsa⟩ := sys_open_wronly_creat_ok _ _ _ _ _ _ hopen
      have hp : g.path_svrdb ≠ (save_setup sdb env.budget).fd.path := by
        rw [hfd]; exact hsvr.symm
      have hp2 : g.path_svrdb ≠ (save_struct fsa (save_setup sdb env.budget)
          (lay.toBytes { ps.sv_qs with sv_savetm := g.time_now }) lay.size).2.2.fd.path := by
        rw [save_struct_path]; exact hp
      simp only at h
      split at h
      · simp only [Option.some.injEq, Prod.mk.injEq] at h
        rw [← h.2.2, save_struct_frame _ _ _ _ _ hp, hfsa _ hsvr.symm]
      · split at h
        · simp only [Option.some.injEq, Prod.mk.injEq] at h
          rw [← h.2.2, save_attr_fs_frame _ _ _ _ _ hp2, save_struct_frame _ _ _ _ _ hp,
            hfsa _ hsvr.symm]
        · split at h
          · simp only [Option.some.injEq, Prod.mk.injEq] at h
            rw [← h.2.2, save_attr_fs_frame _ _ _ _ _ hp2, save_struct_frame _ _ _ _ _ hp,
              hfsa _ hsvr.symm]
          · split at h
            · simp at h
            · simp at h
  · intro h
    unfold sched_save_fs at h ⊢
    split
    · rfl
    · rename_i hmode
      rw [if_neg hmode] at h
      split
      · rfl
      · rename_i sdb fsa hopen
        obtain ⟨hfd, hfsa⟩ := sys_open_wronly_creat_ok _ _ _ _ _ _ hopen
        have hp : g.path_scheddb ≠ (save_setup sdb senv.budget).fd.path := by
          rw [hfd]; exact hsched.symm
        rw [hopen] at h
        simp only at h ⊢
        split
        · simp only
          rw [save_attr_fs_frame _ _ _ _ _ hp, hfsa _ hsched.symm]
        · rename_i hrc
          rw [if_neg hrc] at h
          split
          · simp only
            rw [save_attr_fs_frame _ _ _ _ _ hp, hfsa _ hsched.symm]
          · rename_i hfl
            rw [if_neg hfl] at h
            simp at h

/-- Witness for C3: the device accepts two bytes, the full save returns -1 with the staging
file partly overwritten and the committed file as it was. -/
theorem full_save_failure_keeps_committed_witness :
    svr_save_fs ex_globals ex_layout ex_defs ex_server SVR_SAVE_FULL ex_fs_server
      ex_save_short = some (-1, ⟨⟨1, 2, 3, 10⟩, ex_server.sv_attr⟩, ex_fs_failed) ∧
    ex_fs_failed "/priv/serverdb.new" = some [1, 2, 9, 9, 9, 9, 9, 9, 9] ∧
    ex_fs_failed ex_globals.path_svrdb = ex_fs_server ex_globals.path_svrdb :=
  ⟨rfl, by decide,
    (full_save_failure_keeps_committed ex_globals ex_layout ex_defs ex_defs ex_server
      ⟨⟨1, 2, 3, 10⟩, ex_server.sv_attr⟩ ⟨"default", []⟩ SVR_SAVE_FULL ex_fs_server
      ex_fs_failed ex_save_short ex_save_short (by decide) (by decide)).1 rfl⟩

/-- C9, evaluation at the failing input: a quick save at time 10 of a server whose last
save was at time 5 returns 0, and both the header in memory and the header written to
the file still carry the save time 5. -/
theorem quick_save_keeps_old_savetm :
    ex_globals.time_now = 10 ∧
    (svr_save_fs ex_globals ex_layout ex_defs ex_server SVR_SAVE_QUICK ex_fs_server
        ex_save_ok).map (fun r => (r.1, r.2.1.sv_qs.sv_savetm, r.2.2 "/priv/serverdb"))
      = some (0, 5, some [1, 2, 3, 5, 1, 1, 100]) := by
  decide

/-- C2, evaluation at the failing input: the staging file left by an earlier save holds
nine bytes, the header and the one entry of this save take seven; the full save returns
0, its rename succeeds, and the committed file ends with two bytes of the old staging
file. -/
theorem full_save_keeps_staging_tail :
    (svr_save_fs ex_globals ex_layout ex_defs ex_server SVR_SAVE_FULL ex_fs_server
        ex_save_ok).map
      (fun r => (r.1, r.2.2 "/priv/serverdb", r.2.2 "/priv/serverdb.new"))
      = some (0, some [1, 2, 3, 10, 1, 1, 100, 9, 9], none) := by
  decide

/-- C4: for a committed file at least as long as the header, a quick save that returns
0 leaves the server structure and every other file as they were, the first
`sizeof(struct server_qs)` bytes of the file are the bytes of `ps->sv_qs`, and the bytes
past the header and the length of the file are what they were. A write that returns -1
with `EINTR` is retried with nothing changed; a short write or any other error makes
the call return -1. -/
theorem quick_save_isolation (g : Globals) (lay : QsLayout) (svr_attr_def : List attribute_def)
    (ps : server) (fs : FS) (old : Bytes)
    (hold : fs g.path_svrdb = some old) (hlen : lay.size ≤ old.length) :
    (∀ (env : SaveEnv) (ps1 : server) (fs1 : FS),
      svr_save_fs g lay svr_attr_def ps SVR_SAVE_QUICK fs env = some (0, ps1, fs1) →
      ps1 = ps ∧ (∀ p, p ≠ g.path_svrdb → fs1 p = fs p) ∧
      ∃ new, fs1 g.path_svrdb = some new ∧ new.take lay.size = lay.toBytes ps.sv_qs ∧
        new.drop lay.size = old.drop lay.size ∧ new.length = old.length) ∧
    (∀ (env : SaveEnv) (os : List WriteOutcome), env.open_fault = none →
      env.writes = .error EINTR :: os →
      svr_save_fs g lay svr_attr_def ps SVR_SAVE_QUICK fs env =
        svr_save_fs g lay svr_attr_def ps SVR_SAVE_QUICK fs { env with writes := os }) ∧
    (∀ (env : SaveEnv) (o : WriteOutcome) (os : List WriteOutcome), env.open_fault = none →
      env.writes = o :: os →
      ((∃ k, o = .short k ∧ k < lay.size) ∨ (∃ e, o = .error e ∧ e ≠ EINTR)) →
      ∃ fs1, svr_save_fs g lay svr_attr_def ps SVR_SAVE_QUICK fs env = some (-1, ps, fs1)) := by
  have hopen : ∀ fault, fault = none →
      sys_open_wronly_creat fs g.path_svrdb false fault = .ok (⟨g.path_svrdb, 0⟩, fs) := by
    intro fault hf
    unfold sys_open_wronly_creat
    rw [hf, hold]
    rfl
  refine ⟨?_, ?_, ?_⟩
  · intro env ps1 fs1 h
    unfold svr_save_fs at h
    rw [if_pos rfl] at h
    split at h
    · simp at h
    · rename_i sdb fsa hop
      obtain ⟨hfd, hfsa⟩ := sys_open_keep_ok _ _ _ _ _ _ hold hop
      split at h
      · simp at h
      · simp at h
      · rename_i fs2 hw
        simp only [Option.some.injEq, Prod.mk.injEq, true_and] at h
        obtain ⟨-, hfs2⟩ := write_retry_true _ _ _ _ _ _ hw
        have htake : (lay.toBytes ps.sv_qs).take lay.size = lay.toBytes ps.sv_qs :=
          List.take_of_length_le (by rw [lay.length_toBytes])
        rw [htake, hfd, hfsa] at hfs2
        simp only [hold, Option.getD_some, overlay_zero, lay.length_toBytes] at hfs2
        refine ⟨h.1.symm, ?_, lay.toBytes ps.sv_qs ++ old.drop lay.size, ?_, ?_, ?_, ?_⟩
        · intro p hp
          rw [← h.2, hfs2, FS.put_other _ _ _ _ hp]
        · rw [← h.2, hfs2, FS.put_same]
        · rw [List.take_left' (lay.length_toBytes _)]
        · rw [List.drop_left' (lay.length_toBytes _)]
        · rw [List.length_append, List.length_drop, lay.length_toBytes]
          omega
  · intro env os hof hws
    unfold svr_save_fs
    rw [if_pos rfl, if_pos rfl, hopen _ hof]
    simp only
    rw [hws, write_retry_eintr]
  · intro env o os hof hws ho
    unfold svr_save_fs
    rw [if_pos rfl, hopen _ hof]
    simp only
    rw [hws]
    rcases ho with ⟨k, rfl, hk⟩ | ⟨e, rfl, he⟩
    · obtain ⟨fs1, hfs1⟩ := write_retry_short fs ⟨g.path_svrdb, 0⟩ (lay.toBytes ps.sv_qs)
        lay.size k os hk
      rw [hfs1]
      exact ⟨_, rfl⟩
    · rw [write_retry_error _ _ _ _ _ _ he]
      exact ⟨_, rfl⟩

/-- Witness for C4: the header of the example server is rewritten in place, the entry that
follows it stays. -/
theorem quick_save_isolation_witness :
    ex_server = ex_server ∧
    (∀ p, p ≠ ex_globals.path_svrdb → ex_fs_quick p = ex_fs_server p) ∧
    ∃ new, ex_fs_quick ex_globals.path_svrdb = some new ∧
      new.take ex_layout.size = ex_layout.toBytes ex_server.sv_qs ∧
      new.drop ex_layout.size = List.drop ex_layout.size [0, 0, 0, 1, 1, 1, 100] ∧
      new.length = List.length [0, 0, 0, 1, 1, 1, 100] :=
  (quick_save_isolation ex_globals ex_layout ex_defs ex_server ex_fs_server
    [0, 0, 0, 1, 1, 1, 100] (by decide) (by decide)).1 ex_save_ok ex_server ex_fs_quick rfl

/-- C6 as stated fails: the scheduler file does not exist, `sched_recov_fs` returns 0,
`dflt_scheduler` is still the null pointer and nothing was called after the open,
although the allocator would have returned an object for the default name. -/
theorem sched_recov_fs_missing_file_counterexample :
    ex_sched_alloc PBS_DFLT_SCHED_NAME = some ⟨"default", [⟨0, 1, []⟩]⟩ ∧
    sched_recov_fs ex_sched_alloc ex_parse [ex_codec "sched_cycle_length" 1 1] (fun _ => none)
      none "/priv/scheddb" ⟨none, false⟩ = (0, none, []) := by
  decide

/-- C6 (amended): when the open of the scheduler file fails, `sched_recov_fs` returns 0
for `ENOENT` and -1 for any other `errno`; in both cases `dflt_scheduler` is what it was
before the call and the list of what was called after the open is empty: `sched_alloc`
is not called, so nothing is allocated, and `recov_attr_fs` is not called, so no
attribute is decoded. An open that fails without an injected fault is a missing file
and reports `ENOENT`. -/
theorem sched_recov_fs_open_failure (sched_alloc : String → Option pbs_sched)
    (parse : EntryParser) (sched_attr_def : List attribute_def) (fs : FS)
    (dflt_scheduler : Option pbs_sched) (svrfile : String) (env : SchedRecovEnv)
    (errno : Nat) (hopen : sys_open_rdonly fs svrfile env.open_fault = .error errno) :
    sched_recov_fs sched_alloc parse sched_attr_def fs dflt_scheduler svrfile env =
      ((if errno = ENOENT then 0 else -1), dflt_scheduler, []) ∧
    (env.open_fault = none → fs svrfile = none ∧ errno = ENOENT) := by
  constructor
  · unfold sched_recov_fs
    rw [hopen]
    simp only
    split <;> rfl
  · intro hf
    unfold sys_open_rdonly at hopen
    rw [hf] at hopen
    simp only at hopen
    cases h : fs svrfile with
    | none =>
      rw [h] at hopen
      simp only at hopen
      injection hopen with hopen
      exact ⟨rfl, hopen.symm⟩
    | some c =>
      rw [h] at hopen
      cases hopen

/-- Witness for C6 (amended): the open fails with `EACCES`; the call returns -1, the
scheduler is still the null pointer and nothing was called. -/
theorem sched_recov_fs_open_failure_witness :
    sched_recov_fs ex_sched_alloc ex_parse [ex_codec "sched_cycle_length" 1 1] ex_fs_server
      none "/priv/scheddb" ⟨some 13, false⟩ = (-1, none, []) :=
  (sched_recov_fs_open_failure ex_sched_alloc ex_parse [ex_codec "sched_cycle_length" 1 1]
    ex_fs_server none "/priv/scheddb" ⟨some 13, false⟩ 13 rfl).1

/-- C7 as stated fails: the server file holds two bytes, the read of the header is
short, `svr_recov_fs` returns -1, and the first two bytes of `server.sv_qs` are those of
the file. -/
theorem svr_recov_fs_short_read_counterexample :
    svr_recov_fs ex_globals ex_layout ex_parse ex_defs
      (fun p => if p = "/priv/serverdb" then some [7, 8] else none)
      ⟨⟨1, 2, 3, 4⟩, [⟨0, 1, []⟩, ⟨0, ATR_TYPE_ACL, []⟩]⟩ "/priv/serverdb"
      ⟨none, .full, false, fun _ => ex_recov_ok⟩
      = (-1, ⟨⟨7, 8, 3, 4⟩, [⟨0, 1, []⟩, ⟨0, ATR_TYPE_ACL, []⟩]⟩, []) := by
  decide

/-- C7 (amended): when the read of the header does not return
`sizeof(struct server_qs)`, `svr_recov_fs` returns -1, every attribute slot is what it
was and neither attribute decoding nor ACL recovery is run; `server.sv_qs` holds the
bytes that the read delivered at its start and is otherwise what it was, so it is
unchanged when the read delivered nothing, which is the case when the read failed. -/
theorem svr_recov_fs_short_read (g : Globals) (lay : QsLayout) (parse : EntryParser)
    (svr_attr_def : List attribute_def) (fs : FS) (server0 : server) (svrfile : String)
    (env : RecovEnv) (sdb : Fd)
    (hopen : sys_open_rdonly fs svrfile env.open_fault = .ok sdb)
    (hshort : (sys_read fs sdb lay.size env.read).1 ≠ (lay.size : Int)) :
    svr_recov_fs g lay parse svr_attr_def fs server0 svrfile env =
      (-1, { server0 with
          sv_qs := QsLayout.store lay server0.sv_qs (sys_read fs sdb lay.size env.read).2 },
        []) ∧
    ((sys_read fs sdb lay.size env.read).2 = [] →
      svr_recov_fs g lay parse svr_attr_def fs server0 svrfile env = (-1, server0, [])) ∧
    ((sys_read fs sdb lay.size env.read).1 < 0 →
      (sys_read fs sdb lay.size env.read).2 = []) := by
  have h1 : svr_recov_fs g lay parse svr_attr_def fs server0 svrfile env =
      (-1, { server0 with
          sv_qs := QsLayout.store lay server0.sv_qs (sys_read fs sdb lay.size env.read).2 },
        []) := by
    unfold svr_recov_fs
    rw [hopen]
    simp only
    rw [if_pos hshort]
  refine ⟨h1, ?_, ?_⟩
  · intro hnil
    rw [h1, hnil]
    simp [QsLayout.store, lay.ofBytes_toBytes]
  · intro hneg
    cases hrc : env.read with
    | error e => simp [sys_read]
    | full =>
      rw [hrc] at hneg
      simp only [sys_read] at hneg
      exfalso
      omega
    | short k =>
      rw [hrc] at hneg
      simp only [sys_read] at hneg
      exfalso
      omega

/-- Witness for C7 (amended): the read of the header fails. -/
theorem svr_recov_fs_short_read_witness :
    svr_recov_fs ex_globals ex_layout ex_parse ex_defs ex_fs_server ex_server "/priv/serverdb"
      ⟨none, .error 5, false, fun _ => ex_recov_ok⟩ = (-1, ex_server, []) :=
  (svr_recov_fs_short_read ex_globals ex_layout ex_parse ex_defs ex_fs_server ex_server
    "/priv/serverdb" ⟨none, .error 5, false, fun _ => ex_recov_ok⟩ ⟨"/priv/serverdb", 0⟩ rfl
    (by decide)).2.1 rfl

end SvrRecov
